import Mathlib

/-!
Verification development for the ffmpeg7 node addon's handle-table and
lifecycle subsystem.

Shallow embedding of the C sources:
  addon_src/atomic_api.c  -- context handle table, codec wrappers, muxing
  audio_fifo.c            -- audio ring-buffer wrapper and its handle table

FFmpeg library primitives (the external engine) are modelled from their
documented contracts; everything else is translated directly from the C.
Machine integers are modelled as Int (no arithmetic in this code comes
near the int64 overflow boundary except the id counter, whose wraparound
the calling convention rules out).
-/

namespace FF

/-- AVRational from the engine: a timestamp resolution num/den. -/
structure AVRat where
  num : Int
  den : Int
deriving DecidableEq

/-- AV_NOPTS_VALUE sentinel (INT64_MIN). -/
def AV_NOPTS_VALUE : Int := -(2 ^ 63)

/-- ContextType enum from atomic_api.c. -/
inductive ContextType where
  | input_format
  | output_format
  | encoder
  | decoder
  | frame
  | packet
  | sws
  | swr
deriving DecidableEq, BEq

/-- A demuxed/muxed stream; only the field the wrappers inspect is kept. -/
structure StreamM where
  time_base : AVRat
deriving DecidableEq

/-- AVFormatContext opened for reading (engine object, modelled shallowly). -/
structure InputFormatM where
  streams : List StreamM
deriving DecidableEq

/-- AVFormatContext opened for writing (engine object, modelled shallowly). -/
structure OutputFormatM where
  streams : List StreamM
deriving DecidableEq

/-- AVCodecContext (engine object); the wrappers only read its time_base. -/
structure CodecM where
  time_base : AVRat
deriving DecidableEq

/-- AVFrame: the fields atomic_api.c and audio_fifo.c touch. -/
structure FrameM where
  pts : Int
  pict_type : Int
  nb_samples : Nat
  data : List Int
deriving DecidableEq

/-- AVPacket: the fields atomic_api.c touches. -/
structure PacketM where
  pts : Int
  dts : Int
  duration : Int
  stream_index : Int
  data : List Int
deriving DecidableEq

/-- The native object owned by a context-table entry (the void pointer,
made type-honest for the embedding). -/
inductive NativeObj where
  | fmtIn (f : InputFormatM)
  | fmtOut (f : OutputFormatM)
  | codec (c : CodecM)
  | frame (f : FrameM)
  | packet (p : PacketM)
  | sws
  | swr
deriving DecidableEq

/-- ContextEntry from atomic_api.c. -/
structure ContextEntry where
  id : Int
  type : ContextType
  ptr : Option NativeObj
  in_use : Bool
  options : Option (List (String × String))
  frame_counter : Int
deriving DecidableEq

/-- EncoderStreamMapping from atomic_api.c. -/
structure EncoderStreamMapping where
  encoder_ctx_id : Int
  output_ctx_id : Int
  stream_idx : Int
  encoder_time_base : AVRat
  in_use : Bool
deriving DecidableEq

/-- MAX_CONTEXTS from atomic_api.c. -/
def MAX_CONTEXTS : Nat := 8192

/-- The process-wide mutable state of atomic_api.c: context_table,
next_context_id, and the encoder-stream mapping side table (the list
models the first mapping_count slots of the static array). -/
structure AtomicState where
  table : List ContextEntry
  next_context_id : Int
  mappings : List EncoderStreamMapping
deriving DecidableEq

/-- A zeroed ContextEntry (C static initialisation). -/
def initEntry : ContextEntry :=
  { id := 0, type := .input_format, ptr := none, in_use := false
  , options := none, frame_counter := 0 }

/-- Initial process state of atomic_api.c. -/
def initAtomicState : AtomicState :=
  { table := List.replicate MAX_CONTEXTS initEntry
  , next_context_id := 1
  , mappings := [] }

/-- Result of a wrapper call: ok value, or a thrown JS error message. -/
inductive ApiResult (α : Type) where
  | ok (a : α)
  | err (msg : String)
deriving DecidableEq

/-- The slot-scan of alloc_context_id: reserve the first slot that is not
in use, stamping it with the fresh id; the replaced slot's frame_counter
is left as is (the C never writes that field here). Returns none when
every slot is in use. -/
def allocSlot (nid : Int) (ty : ContextType) (p : NativeObj) :
    List ContextEntry → Option (List ContextEntry)
  | [] => none
  | e :: rest =>
    if e.in_use then
      (allocSlot nid ty p rest).map (e :: ·)
    else
      some ({ id := nid, type := ty, ptr := some p, in_use := true
            , options := none, frame_counter := e.frame_counter } :: rest)

/-- alloc_context_id from atomic_api.c: first free slot gets
next_context_id (post-incremented); -1 when the table is full. -/
def alloc_context_id (st : AtomicState) (ty : ContextType) (p : NativeObj) :
    Int × AtomicState :=
  match allocSlot st.next_context_id ty p st.table with
  | some t =>
    (st.next_context_id,
     { st with table := t, next_context_id := st.next_context_id + 1 })
  | none => (-1, st)

/-- get_context_ptr from atomic_api.c: the stored pointer of the first
in-use entry matching both the id and the expected type; NULL (none)
otherwise. -/
def get_context_ptr (st : AtomicState) (cid : Int) (expected : ContextType) :
    Option NativeObj :=
  match st.table.find? (fun e => e.in_use && e.id == cid && e.type == expected) with
  | some e => e.ptr
  | none => none

/-- get_context_entry from atomic_api.c: the first in-use entry with the
given id, regardless of type. -/
def get_context_entry (st : AtomicState) (cid : Int) : Option ContextEntry :=
  st.table.find? (fun e => e.in_use && e.id == cid)

/-- The slot-scan of free_context_id: clear the first in-use entry with
the given id (in_use := 0, ptr := NULL, options freed); id and
frame_counter are left untouched. -/
def freeSlot (cid : Int) : List ContextEntry → List ContextEntry
  | [] => []
  | e :: rest =>
    if e.in_use && e.id == cid then
      { e with in_use := false, ptr := none, options := none } :: rest
    else
      e :: freeSlot cid rest

/-- free_context_id from atomic_api.c. -/
def free_context_id (st : AtomicState) (cid : Int) : AtomicState :=
  { st with table := freeSlot cid st.table }

/-- cleanup_encoder_mappings from atomic_api.c: mark every mapping row of
this encoder id as unused (no break; the whole prefix is scanned). -/
def cleanup_encoder_mappings (st : AtomicState) (encoder_ctx_id : Int) :
    AtomicState :=
  { st with mappings := st.mappings.map (fun m =>
      if m.in_use && m.encoder_ctx_id == encoder_ctx_id then
        { m with in_use := false }
      else m) }

/-- Generic first-match in-place update, mirroring mutation through the
entry pointer the C loops obtain. -/
def updateFirst {α : Type} (p : α → Bool) (g : α → α) : List α → List α
  | [] => []
  | e :: rest => if p e then g e :: rest else e :: updateFirst p g rest

/-- atomic_close_context from atomic_api.c: find the live entry, run the
kind-specific destructor (frames and packets have no branch here and are
not destroyed by this call), cascade mapping cleanup for encoders, then
clear the slot via free_context_id. The emitted list records which
destructor ran (at most one per call). -/
def atomic_close_context (st : AtomicState) (cid : Int) :
    AtomicState × List (ContextType × Option NativeObj) :=
  match st.table.find? (fun e => e.in_use && e.id == cid) with
  | none => (st, [])
  | some e =>
    let acts : List (ContextType × Option NativeObj) :=
      match e.type with
      | .frame => []
      | .packet => []
      | _ => [(e.type, e.ptr)]
    let st1 := if e.type == .encoder then cleanup_encoder_mappings st cid else st
    (free_context_id st1 cid, acts)

/-- atomic_create_encoder from atomic_api.c: the engine allocates a fresh
codec context (avcodec_alloc_context3 leaves time_base at 0/1), which is
registered with the ENCODER tag; -1 (after the engine object is freed)
when the table is full. -/
def atomic_create_encoder (st : AtomicState) : Int × AtomicState :=
  alloc_context_id st .encoder (.codec { time_base := { num := 0, den := 1 } })

/-- atomic_create_decoder from atomic_api.c (same shape, DECODER tag). -/
def atomic_create_decoder (st : AtomicState) : Int × AtomicState :=
  alloc_context_id st .decoder (.codec { time_base := { num := 0, den := 1 } })

/-- av_frame_alloc engine defaults: no pts, no picture type, no data. -/
def freshFrame : FrameM :=
  { pts := AV_NOPTS_VALUE, pict_type := 0, nb_samples := 0, data := [] }

/-- atomic_alloc_frame from atomic_api.c. -/
def atomic_alloc_frame (st : AtomicState) : Int × AtomicState :=
  alloc_context_id st .frame (.frame freshFrame)

/-- av_packet_alloc engine defaults. -/
def freshPacket : PacketM :=
  { pts := AV_NOPTS_VALUE, dts := AV_NOPTS_VALUE, duration := 0
  , stream_index := 0, data := [] }

/-- atomic_alloc_packet from atomic_api.c. -/
def atomic_alloc_packet (st : AtomicState) : Int × AtomicState :=
  alloc_context_id st .packet (.packet freshPacket)

/-- Status mapping shared by the four pump wrappers in atomic_api.c:
0 success, -1 for AVERROR(EAGAIN), -2 for AVERROR_EOF, -3 otherwise. -/
def AVERROR_EAGAIN : Int := -11

/-- AVERROR_EOF error code of the engine. -/
def AVERROR_EOF : Int := -541478725

/-- The return-code mapping the pump wrappers apply to the engine result. -/
def statusMap (ret : Int) : Int :=
  if ret = 0 then 0
  else if ret = AVERROR_EAGAIN then -1
  else if ret = AVERROR_EOF then -2
  else -3

/-- atomic_send_packet from atomic_api.c. The engine call
avcodec_send_packet is a parameter. Note the C looks the packet argument
up with get_context_ptr and, when the lookup fails, proceeds with a NULL
packet (the flush sentinel) instead of throwing. -/
def atomic_send_packet (eng : CodecM → Option PacketM → Int)
    (st : AtomicState) (decoder_ctx_id : Int) (pkt_arg : Option Int) :
    ApiResult Int :=
  match get_context_ptr st decoder_ctx_id .decoder with
  | some (.codec c) =>
    let pkt : Option PacketM :=
      match pkt_arg with
      | none => none
      | some pid =>
        match get_context_ptr st pid .packet with
        | some (.packet p) => some p
        | _ => none
    .ok (statusMap (eng c pkt))
  | _ => .err "Invalid decoder context"

/-- atomic_send_frame from atomic_api.c. When a live frame is passed, the
wrapper clears its picture type and unconditionally overwrites its pts
with the encoder entry's frame_counter, which is then post-incremented;
a missing frame lookup degrades to the NULL (flush) send exactly like
atomic_send_packet. The engine call avcodec_send_frame is a parameter. -/
def atomic_send_frame (eng : CodecM → Option FrameM → Int)
    (st : AtomicState) (encoder_ctx_id : Int) (frame_arg : Option Int) :
    ApiResult Int × AtomicState :=
  match get_context_ptr st encoder_ctx_id .encoder,
        get_context_entry st encoder_ctx_id with
  | some (.codec c), some entry =>
    match frame_arg with
    | none => (.ok (statusMap (eng c none)), st)
    | some fid =>
      match get_context_ptr st fid .frame with
      | some (.frame f) =>
        let f' := { f with pict_type := 0, pts := entry.frame_counter }
        let t1 := updateFirst
          (fun e => e.in_use && e.id == fid && e.type == ContextType.frame)
          (fun e => { e with ptr := some (.frame f') }) st.table
        let t2 := updateFirst
          (fun e => e.in_use && e.id == encoder_ctx_id)
          (fun e => { e with frame_counter := e.frame_counter + 1 }) t1
        (.ok (statusMap (eng c (some f'))), { st with table := t2 })
      | _ => (.ok (statusMap (eng c none)), st)
  | _, _ => (.err "Invalid encoder context", st)

/-- atomic_write_header from atomic_api.c: validates that the handle is a
live OUTPUT_FORMAT context, then hands the context and the staged options
to the engine (avio_open plus avformat_write_header, folded into the
parameter); the state is never modified. -/
def atomic_write_header (hdr : OutputFormatM → List (String × String) → Int)
    (st : AtomicState) (cid : Int) : ApiResult Unit × AtomicState :=
  match get_context_ptr st cid .output_format, get_context_entry st cid with
  | some (.fmtOut f), some entry =>
    let ret := hdr f (entry.options.getD [])
    if ret < 0 then (.err "engine error", st) else (.ok (), st)
  | _, _ => (.err "Invalid output context", st)

/-- atomic_copy_encoder_to_stream from atomic_api.c: after validation the
engine copies the codec parameters into the stream, then the encoder's
time_base is recorded in the mapping side table (first unused row, else
appended while mapping_count < MAX_CONTEXTS, else silently dropped). -/
def atomic_copy_encoder_to_stream (st : AtomicState)
    (encoder_ctx_id output_ctx_id output_stream_idx : Int) :
    ApiResult Unit × AtomicState :=
  match get_context_ptr st encoder_ctx_id .encoder,
        get_context_ptr st output_ctx_id .output_format with
  | some (.codec c), some (.fmtOut f) =>
    if (f.streams.length : Int) ≤ output_stream_idx then
      (.err "Invalid stream index", st)
    else
      let row : EncoderStreamMapping :=
        { encoder_ctx_id := encoder_ctx_id, output_ctx_id := output_ctx_id
        , stream_idx := output_stream_idx, encoder_time_base := c.time_base
        , in_use := true }
      match st.mappings.findIdx? (fun m => !m.in_use) with
      | some i => (.ok (), { st with mappings := st.mappings.set i row })
      | none =>
        if st.mappings.length < MAX_CONTEXTS then
          (.ok (), { st with mappings := st.mappings ++ [row] })
        else
          (.ok (), st)
  | _, _ => (.err "Invalid context", st)

/-- av_rescale_q engine contract: exact rational rescaling a * bq / cq,
rounded to nearest with halfway cases away from zero (AV_ROUND_NEAR_INF),
for positive resulting denominators. -/
def av_rescale_q (a : Int) (bq cq : AVRat) : Int :=
  let b := bq.num * cq.den
  let c := bq.den * cq.num
  let n := a * b
  if 0 ≤ n then (2 * n + c) / (2 * c) else -((2 * (-n) + c) / (2 * c))

/-- av_packet_rescale_ts engine contract: rescale pts and dts unless they
are AV_NOPTS_VALUE, and duration when positive — all with the same
source/destination pair. -/
def av_packet_rescale_ts (p : PacketM) (src dst : AVRat) : PacketM :=
  let p1 := if p.pts != AV_NOPTS_VALUE then
      { p with pts := av_rescale_q p.pts src dst } else p
  let p2 := if p1.dts != AV_NOPTS_VALUE then
      { p1 with dts := av_rescale_q p1.dts src dst } else p1
  if 0 < p2.duration then
      { p2 with duration := av_rescale_q p2.duration src dst } else p2

/-- The mapping scan of atomic_write_packet: first in-use row whose
output context and stream index match (the encoder id is not consulted). -/
def findMappingTb (st : AtomicState) (output_ctx_id output_stream_idx : Int) :
    Option AVRat :=
  (st.mappings.find? (fun m =>
      m.in_use && m.output_ctx_id == output_ctx_id
        && m.stream_idx == output_stream_idx)).map (·.encoder_time_base)

/-- atomic_write_packet from atomic_api.c. The packet is cloned
(av_packet_clone); the clone gets the output stream index and — when a
source time_base was found AND the output stream's time_base numerator is
non-zero — rescaled timestamps; the clone is then handed to the muxer
(av_interleaved_write_frame, a parameter) and freed. The handle table is
never modified. The clone handed to the muxer is returned alongside the
call result so theorems can speak about it. -/
def atomic_write_packet (mux : OutputFormatM → PacketM → Int)
    (st : AtomicState) (output_ctx_id pkt_id output_stream_idx : Int)
    (inputPair : Option (Int × Int)) :
    (ApiResult Unit × Option PacketM) × AtomicState :=
  match get_context_ptr st output_ctx_id .output_format,
        get_context_ptr st pkt_id .packet with
  | some (.fmtOut f), some (.packet pkt) =>
    ((if (f.streams.length : Int) ≤ output_stream_idx then
        (.err "Invalid stream index", none)
      else
        let out_pkt1 := { pkt with stream_index := output_stream_idx }
        let out_stream := f.streams.getD output_stream_idx.toNat
          { time_base := { num := 0, den := 1 } }
        let src1 : AVRat :=
          match inputPair with
          | some (ic, ii) =>
            match get_context_ptr st ic .input_format with
            | some (.fmtIn fi) =>
              if ii < (fi.streams.length : Int) then
                (fi.streams.getD ii.toNat
                  { time_base := { num := 0, den := 1 } }).time_base
              else { num := 0, den := 1 }
            | _ => { num := 0, den := 1 }
          | none => { num := 0, den := 1 }
        let src2 : AVRat :=
          if src1.num == 0 then
            match findMappingTb st output_ctx_id output_stream_idx with
            | some tb => tb
            | none => src1
          else src1
        let out_pkt2 :=
          if src2.num != 0 && out_stream.time_base.num != 0 then
            av_packet_rescale_ts out_pkt1 src2 out_stream.time_base
          else out_pkt1
        let ret := mux f out_pkt2
        if ret < 0 then (.err "engine error", some out_pkt2)
        else (.ok (), some out_pkt2)), st)
  | _, _ => ((.err "Invalid context or packet", none), st)

/-! Audio FIFO wrapper (audio_fifo.c) and the engine AVAudioFifo. -/

/-- AVAudioFifo engine object: buffered samples (oldest first) and the
allocated capacity in samples. One abstract sample stands for one
multi-channel sample period, matching the per-sample accounting of the
engine's size/space/read/write interface. -/
structure AVAudioFifoM where
  data : List Int
  allocated : Nat
deriving DecidableEq

/-- av_audio_fifo_size engine contract: samples currently buffered. -/
def av_audio_fifo_size (f : AVAudioFifoM) : Int := f.data.length

/-- av_audio_fifo_space engine contract: samples writable before the next
reallocation. -/
def av_audio_fifo_space (f : AVAudioFifoM) : Int :=
  (f.allocated : Int) - f.data.length

/-- av_audio_fifo_realloc engine contract: set the allocation to the
requested sample count, preserving buffered data. -/
def av_audio_fifo_realloc (f : AVAudioFifoM) (n : Int) : AVAudioFifoM :=
  { f with allocated := n.toNat }

/-- av_audio_fifo_write engine contract: append n samples from the source
planes, growing the allocation if needed; returns the count written. -/
def av_audio_fifo_write (f : AVAudioFifoM) (xs : List Int) (n : Nat) :
    AVAudioFifoM × Int :=
  ({ data := f.data ++ xs.take n
   , allocated := max f.allocated (f.data.length + n) }, (n : Int))

/-- av_audio_fifo_read engine contract: move min(n, size) oldest samples
out of the buffer; returns the moved samples and their count. -/
def av_audio_fifo_read (f : AVAudioFifoM) (n : Nat) :
    AVAudioFifoM × List Int × Int :=
  let k := min n f.data.length
  ({ f with data := f.data.drop k }, f.data.take k, (k : Int))

/-- av_audio_fifo_drain engine contract: discard min(n, size) oldest
samples. -/
def av_audio_fifo_drain (f : AVAudioFifoM) (n : Nat) : AVAudioFifoM :=
  { f with data := f.data.drop n }

/-- AudioFIFOEntry from audio_fifo.c. -/
structure AudioFIFOEntry where
  id : Int
  fifo : Option AVAudioFifoM
  sample_fmt : Int
  channels : Int
  in_use : Bool
deriving DecidableEq

/-- MAX_AUDIO_FIFOS from audio_fifo.c. -/
def MAX_AUDIO_FIFOS : Nat := 1024

/-- The process-wide mutable state of audio_fifo.c: audio_fifo_table and
next_fifo_id. -/
structure AudioState where
  table : List AudioFIFOEntry
  next_fifo_id : Int
deriving DecidableEq

/-- A zeroed AudioFIFOEntry (C static initialisation). -/
def initAudioEntry : AudioFIFOEntry :=
  { id := 0, fifo := none, sample_fmt := 0, channels := 0, in_use := false }

/-- Initial process state of audio_fifo.c. -/
def initAudioState : AudioState :=
  { table := List.replicate MAX_AUDIO_FIFOS initAudioEntry, next_fifo_id := 1 }

/-- The slot-scan of alloc_audio_fifo_id. -/
def audioAllocSlot (nid : Int) (fifo : AVAudioFifoM) (fmt ch : Int) :
    List AudioFIFOEntry → Option (List AudioFIFOEntry)
  | [] => none
  | e :: rest =>
    if e.in_use then
      (audioAllocSlot nid fifo fmt ch rest).map (e :: ·)
    else
      some ({ id := nid, fifo := some fifo, sample_fmt := fmt
            , channels := ch, in_use := true } :: rest)

/-- alloc_audio_fifo_id from audio_fifo.c: first free slot gets
next_fifo_id (post-incremented); -1 when the table is full. -/
def alloc_audio_fifo_id (ast : AudioState) (fifo : AVAudioFifoM)
    (fmt ch : Int) : Int × AudioState :=
  match audioAllocSlot ast.next_fifo_id fifo fmt ch ast.table with
  | some t =>
    (ast.next_fifo_id,
     { ast with table := t, next_fifo_id := ast.next_fifo_id + 1 })
  | none => (-1, ast)

/-- get_audio_fifo_entry from audio_fifo.c. -/
def get_audio_fifo_entry (ast : AudioState) (fid : Int) :
    Option AudioFIFOEntry :=
  ast.table.find? (fun e => e.in_use && e.id == fid)

/-- The slot-scan of free_audio_fifo_id: the first in-use entry with the
id has its engine buffer freed and the slot cleared. -/
def audioFreeSlot (fid : Int) : List AudioFIFOEntry → List AudioFIFOEntry
  | [] => []
  | e :: rest =>
    if e.in_use && e.id == fid then
      { e with in_use := false, fifo := none } :: rest
    else
      e :: audioFreeSlot fid rest

/-- free_audio_fifo_id from audio_fifo.c. -/
def free_audio_fifo_id (ast : AudioState) (fid : Int) : AudioState :=
  { ast with table := audioFreeSlot fid ast.table }

/-- audio_fifo_alloc from audio_fifo.c: a requested initial size below 1
falls back to 1024; the engine buffer starts empty at that allocation;
registration failure (-1) frees the engine buffer and reports the table
as full. -/
def audio_fifo_alloc (ast : AudioState) (fmt ch nb : Int) : Int × AudioState :=
  let nb1 := if nb < 1 then 1024 else nb
  let fifo : AVAudioFifoM := { data := [], allocated := nb1.toNat }
  alloc_audio_fifo_id ast fifo fmt ch

/-- audio_fifo_write from audio_fifo.c: after both handle validations,
the buffer is reallocated to size + nb_samples when the remaining space
is short, then the frame's nb_samples samples are appended; returns the
engine's written count. The context table is read but never modified. -/
def audio_fifo_write (st : AtomicState) (ast : AudioState)
    (fifo_id frame_id : Int) : ApiResult Int × AudioState :=
  match get_audio_fifo_entry ast fifo_id with
  | some entry =>
    match entry.fifo with
    | some fifo =>
      match get_context_ptr st frame_id .frame with
      | some (.frame frame) =>
        let required := av_audio_fifo_size fifo + (frame.nb_samples : Int)
        let fifo1 :=
          if av_audio_fifo_space fifo < (frame.nb_samples : Int) then
            av_audio_fifo_realloc fifo required
          else fifo
        let (fifo2, ret) := av_audio_fifo_write fifo1 frame.data frame.nb_samples
        let t' := updateFirst (fun e => e.in_use && e.id == fifo_id)
          (fun e => { e with fifo := some fifo2 }) ast.table
        (.ok ret, { ast with table := t' })
      | _ => (.err "Invalid frame ID", ast)
    | none => (.err "Invalid AudioFIFO ID", ast)
  | none => (.err "Invalid AudioFIFO ID", ast)

/-- audio_fifo_read from audio_fifo.c: the request is clamped to the
buffered size; a non-positive clamped request returns 0 and changes
nothing; otherwise the oldest samples are moved into the frame, whose
nb_samples is set to the count actually read. -/
def audio_fifo_read (st : AtomicState) (ast : AudioState)
    (fifo_id frame_id : Int) (nb : Int) :
    ApiResult Int × AtomicState × AudioState :=
  match get_audio_fifo_entry ast fifo_id with
  | some entry =>
    match entry.fifo with
    | some fifo =>
      match get_context_ptr st frame_id .frame with
      | some (.frame frame) =>
        let available := av_audio_fifo_size fifo
        let nb1 := if available < nb then available else nb
        if nb1 ≤ 0 then (.ok 0, st, ast)
        else
          let (fifo', outSamples, ret) := av_audio_fifo_read fifo nb1.toNat
          let frame' :=
            { frame with data := outSamples, nb_samples := ret.toNat }
          let ct' := updateFirst
            (fun e => e.in_use && e.id == frame_id
                        && e.type == ContextType.frame)
            (fun e => { e with ptr := some (.frame frame') }) st.table
          let at' := updateFirst (fun e => e.in_use && e.id == fifo_id)
            (fun e => { e with fifo := some fifo' }) ast.table
          (.ok ret, { st with table := ct' }, { ast with table := at' })
      | _ => (.err "Invalid frame ID", st, ast)
    | none => (.err "Invalid AudioFIFO ID", st, ast)
  | none => (.err "Invalid AudioFIFO ID", st, ast)

/-! Helper lemmas about the table scans. -/

/-- Ids of the entries currently in use, in slot order. -/
def liveIds (l : List ContextEntry) : List Int :=
  (l.filter (·.in_use)).map (·.id)

/-- Ids of the audio-fifo entries currently in use, in slot order. -/
def audioLiveIds (l : List AudioFIFOEntry) : List Int :=
  (l.filter (·.in_use)).map (·.id)

/-- Table invariant of atomic_api.c: the id counter started at 1 and every
live id is a past counter value, pairwise distinct. -/
def AtomicInv (st : AtomicState) : Prop :=
  1 ≤ st.next_context_id ∧
  (∀ e ∈ st.table, e.in_use = true →
      1 ≤ e.id ∧ e.id < st.next_context_id) ∧
  (liveIds st.table).Nodup

/-- Table invariant of audio_fifo.c (same shape as AtomicInv). -/
def AudioInv (ast : AudioState) : Prop :=
  1 ≤ ast.next_fifo_id ∧
  (∀ e ∈ ast.table, e.in_use = true →
      1 ≤ e.id ∧ e.id < ast.next_fifo_id) ∧
  (audioLiveIds ast.table).Nodup

/-- Engine stub used in concrete replays: avcodec_send_frame accepting
every input. -/
def engZero : CodecM → Option FrameM → Int := fun _ _ => 0

/-- Replay for claim C9, step 1: create the first encoder (id 1). -/
def s1C9 : Int × AtomicState := atomic_create_encoder initAtomicState

/-- Step 2: allocate a frame (id 2). -/
def s2C9 : Int × AtomicState := atomic_alloc_frame s1C9.2

/-- Step 3: first send-frame to encoder 1 (assigns pts 0). -/
def s3C9 : AtomicState := (atomic_send_frame engZero s2C9.2 1 (some 2)).2

/-- Step 4: second send-frame to encoder 1 (assigns pts 1). -/
def s4C9 : AtomicState := (atomic_send_frame engZero s3C9 1 (some 2)).2

/-- Step 5: close encoder 1 (slot 0 freed, its frame_counter stays 2). -/
def s5C9 : AtomicState := (atomic_close_context s4C9 1).1

/-- Step 6: create a second encoder; it reuses slot 0 under fresh id 3. -/
def s6C9 : Int × AtomicState := atomic_create_encoder s5C9

/-- Step 7: first send-frame to the second encoder. -/
def s7C9 : AtomicState := (atomic_send_frame engZero s6C9.2 3 (some 2)).2

/-! Concrete states used by witnesses and counterexamples. -/

/-- A freshly allocated codec context. -/
def cW : CodecM := { time_base := { num := 0, den := 1 } }

/-- A live decoder entry under id 1. -/
def decE1 : ContextEntry :=
  { id := 1, type := .decoder, ptr := some (.codec cW), in_use := true
  , options := none, frame_counter := 0 }

/-- A live frame entry under id 2. -/
def frmE2 : ContextEntry :=
  { id := 2, type := .frame, ptr := some (.frame freshFrame), in_use := true
  , options := none, frame_counter := 0 }

/-- A state holding a decoder (id 1) and a frame (id 2). -/
def stC1 : AtomicState :=
  { table := [decE1, frmE2], next_context_id := 3, mappings := [] }

/-- The frame passed through send-frame: picture type cleared, pts
overwritten with the encoder's counter value. -/
def sentFrame (f : FrameM) (k : Int) : FrameM :=
  { f with pict_type := 0, pts := k }

/-- The handle table after a successful send-frame: the frame entry holds
the mutated frame, the encoder entry's counter is post-incremented. -/
def sendFrameTable (st : AtomicState) (eid fid : Int) (f' : FrameM) :
    List ContextEntry :=
  updateFirst (fun e => e.in_use && e.id == eid)
    (fun e => { e with frame_counter := e.frame_counter + 1 })
    (updateFirst
      (fun e => e.in_use && e.id == fid && e.type == ContextType.frame)
      (fun e => { e with ptr := some (.frame f') }) st.table)

/-- A live encoder entry under id 1 with counter 0. -/
def encE1 : ContextEntry :=
  { id := 1, type := .encoder, ptr := some (.codec cW), in_use := true
  , options := none, frame_counter := 0 }

/-- A frame whose pts the caller has explicitly set to 999. -/
def frm999 : FrameM :=
  { pts := 999, pict_type := 0, nb_samples := 0, data := [] }

/-- An entry holding that frame under id 2. -/
def frmE999 : ContextEntry :=
  { id := 2, type := .frame, ptr := some (.frame frm999), in_use := true
  , options := none, frame_counter := 0 }

/-- Encoder (id 1, counter 0) plus a frame (id 2) with caller-set pts. -/
def stC2 : AtomicState :=
  { table := [encE1, frmE999], next_context_id := 3, mappings := [] }

/-- A one-slot empty context table (invariant holds trivially). -/
def stC4w : AtomicState :=
  { table := [initEntry], next_context_id := 1, mappings := [] }

/-- A one-slot empty audio-fifo table. -/
def astC4w : AudioState :=
  { table := [initAudioEntry], next_fifo_id := 1 }

/-- Witness for C3_double_close at a one-frame state. -/
def stC3w : AtomicState :=
  { table := [frmE2], next_context_id := 3, mappings := [] }

/-- A full one-slot context table holding id 5. -/
def stC5w : AtomicState :=
  { table := [{ id := 5, type := .frame, ptr := some (.frame freshFrame)
              , in_use := true, options := none, frame_counter := 0 }]
  , next_context_id := 9, mappings := [] }

/-- A full one-slot audio table holding id 2. -/
def astC5w : AudioState :=
  { table := [{ id := 2, fifo := some { data := [], allocated := 4 }
              , sample_fmt := 8, channels := 1, in_use := true }]
  , next_fifo_id := 3 }

/-- A three-sample fifo used by the C7 witness. -/
def fifoC7 : AVAudioFifoM := { data := [10, 20, 30], allocated := 8 }

/-- Its audio-table entry under id 1. -/
def aEntC7 : AudioFIFOEntry :=
  { id := 1, fifo := some fifoC7, sample_fmt := 8, channels := 1
  , in_use := true }

/-- The audio table for the C7 witness. -/
def astC7 : AudioState := { table := [aEntC7], next_fifo_id := 2 }

/-- The 2000 samples written in the C8 witness. -/
def dataC8 : List Int := (List.range 2000).map Int.ofNat

/-- A frame holding those 2000 samples. -/
def frameC8 : FrameM :=
  { pts := 0, pict_type := 0, nb_samples := 2000, data := dataC8 }

/-- Its context-table entry under id 2. -/
def frmEC8 : ContextEntry :=
  { id := 2, type := .frame, ptr := some (.frame frameC8), in_use := true
  , options := none, frame_counter := 0 }

/-- The context table for the C8 witness. -/
def stC8 : AtomicState :=
  { table := [frmEC8], next_context_id := 3, mappings := [] }

/-- An empty fifo created with initial capacity 1024. -/
def fifoC8 : AVAudioFifoM := { data := [], allocated := 1024 }

/-- Its audio-table entry under id 1. -/
def aEntC8 : AudioFIFOEntry :=
  { id := 1, fifo := some fifoC8, sample_fmt := 8, channels := 1
  , in_use := true }

/-- The audio table for the C8 witness. -/
def astC8 : AudioState := { table := [aEntC8], next_fifo_id := 2 }

/-- The source-time_base selection of atomic_write_packet, factored out
verbatim for the statements below: (a) the input stream's time_base when
a valid input pair with a non-zero-numerator time_base is supplied, else
(b) the first in-use mapping row matching (output ctx, stream idx), else
(c) zero (no rescaling). -/
def writePacketSrcTb (st : AtomicState) (output_ctx_id output_stream_idx : Int)
    (inputPair : Option (Int × Int)) : AVRat :=
  let src1 : AVRat :=
    match inputPair with
    | some (ic, ii) =>
      match get_context_ptr st ic .input_format with
      | some (.fmtIn fi) =>
        if ii < (fi.streams.length : Int) then
          (fi.streams.getD ii.toNat
            { time_base := { num := 0, den := 1 } }).time_base
        else { num := 0, den := 1 }
      | _ => { num := 0, den := 1 }
    | none => { num := 0, den := 1 }
  if src1.num == 0 then
    match findMappingTb st output_ctx_id output_stream_idx with
    | some tb => tb
    | none => src1
  else src1

/-- The muxer engine stub (always succeeds). -/
def muxZero : OutputFormatM → PacketM → Int := fun _ _ => 0

/-- An output stream whose time_base the muxer has not set yet (0/1). -/
def outS0C6 : StreamM := { time_base := { num := 0, den := 1 } }

/-- An output context holding only that stream. -/
def outF0C6 : OutputFormatM := { streams := [outS0C6] }

/-- Its table entry under id 1. -/
def outE0C6 : ContextEntry :=
  { id := 1, type := .output_format, ptr := some (.fmtOut outF0C6)
  , in_use := true, options := none, frame_counter := 0 }

/-- A packet with pts 100, dts 100, duration 10. -/
def pktC6 : PacketM :=
  { pts := 100, dts := 100, duration := 10, stream_index := 0, data := [] }

/-- Its table entry under id 2. -/
def pktEC6 : ContextEntry :=
  { id := 2, type := .packet, ptr := some (.packet pktC6), in_use := true
  , options := none, frame_counter := 0 }

/-- A mapping row recording encoder resolution 1/1000 for output 1
stream 0. -/
def mapRowC6 : EncoderStreamMapping :=
  { encoder_ctx_id := 9, output_ctx_id := 1, stream_idx := 0
  , encoder_time_base := { num := 1, den := 1000 }, in_use := true }

/-- Output (unset stream time_base) + packet + mapping row. -/
def stC6x : AtomicState :=
  { table := [outE0C6, pktEC6], next_context_id := 3
  , mappings := [mapRowC6] }

/-- An output stream with time_base 1/90000, as the muxer would set. -/
def outSC6 : StreamM := { time_base := { num := 1, den := 90000 } }

/-- An output context holding it. -/
def outFC6 : OutputFormatM := { streams := [outSC6] }

/-- Its table entry under id 1. -/
def outEC6 : ContextEntry :=
  { id := 1, type := .output_format, ptr := some (.fmtOut outFC6)
  , in_use := true, options := none, frame_counter := 0 }

/-- An input stream with time_base 1/1000. -/
def inSC6 : StreamM := { time_base := { num := 1, den := 1000 } }

/-- An input context holding it. -/
def inFC6 : InputFormatM := { streams := [inSC6] }

/-- Its table entry under id 3. -/
def inEC6 : ContextEntry :=
  { id := 3, type := .input_format, ptr := some (.fmtIn inFC6)
  , in_use := true, options := none, frame_counter := 0 }

/-- A mapping row recording encoder resolution 1/48000 for output 1
stream 0. -/
def mapRow48C6 : EncoderStreamMapping :=
  { encoder_ctx_id := 9, output_ctx_id := 1, stream_idx := 0
  , encoder_time_base := { num := 1, den := 48000 }, in_use := true }

/-- Output + packet + input + mapping row, for the C6 witness. -/
def stC6w : AtomicState :=
  { table := [outEC6, pktEC6, inEC6], next_context_id := 4
  , mappings := [mapRow48C6] }

theorem mem_liveIds {l : List ContextEntry} {x : Int} :
    x ∈ liveIds l ↔ ∃ e ∈ l, e.in_use = true ∧ e.id = x := by
  simp [liveIds, List.mem_map, List.mem_filter, and_assoc]

theorem mem_audioLiveIds {l : List AudioFIFOEntry} {x : Int} :
    x ∈ audioLiveIds l ↔ ∃ e ∈ l, e.in_use = true ∧ e.id = x := by
  simp [audioLiveIds, List.mem_map, List.mem_filter, and_assoc]

theorem updateFirst_of_find?_none {α : Type} {p : α → Bool} {g : α → α}
    {l : List α} (h : l.find? p = none) : updateFirst p g l = l := by
  induction l with
  | nil => rfl
  | cons a t ih =>
    rw [List.find?_cons] at h
    cases hpa : p a with
    | true => simp [hpa] at h
    | false =>
      simp [hpa] at h
      have hn : t.find? p = none :=
        List.find?_eq_none.mpr (fun x hx => by simp [h x hx])
      simp [updateFirst, hpa, ih hn]

theorem find?_updateFirst {α : Type} {p : α → Bool} {g : α → α}
    {l : List α} {e : α} (h : l.find? p = some e) (hg : p (g e) = true) :
    (updateFirst p g l).find? p = some (g e) := by
  induction l with
  | nil => simp at h
  | cons a t ih =>
    rw [List.find?_cons] at h
    cases hpa : p a with
    | true =>
      simp [hpa] at h
      subst h
      simp [updateFirst, hpa, List.find?_cons, hg]
    | false =>
      simp [hpa] at h
      simp [updateFirst, hpa, List.find?_cons, ih h]

theorem find?_updateFirst_other {α : Type} {p q : α → Bool} {g : α → α}
    (hq : ∀ x, q (g x) = q x) (hpq : ∀ x, q x = true → p x = false)
    (l : List α) : (updateFirst p g l).find? q = l.find? q := by
  induction l with
  | nil => rfl
  | cons a t ih =>
    cases hpa : p a with
    | true =>
      have hqa : q a = false := by
        cases hqa : q a with
        | true => rw [hpq a hqa] at hpa; exact absurd hpa (by simp)
        | false => rfl
      simp [updateFirst, hpa, List.find?_cons, hq a, hqa]
    | false =>
      cases hqa : q a with
      | true => simp [updateFirst, hpa, List.find?_cons, hqa]
      | false => simp [updateFirst, hpa, List.find?_cons, hqa, ih]

theorem get_context_ptr_some {st : AtomicState} {cid : Int} {t : ContextType}
    {v : NativeObj} (h : get_context_ptr st cid t = some v) :
    ∃ e, st.table.find?
        (fun e => e.in_use && e.id == cid && e.type == t) = some e ∧
      e.ptr = some v := by
  unfold get_context_ptr at h
  cases hf : st.table.find?
      (fun e => e.in_use && e.id == cid && e.type == t) with
  | none => rw [hf] at h; exact absurd h (by simp)
  | some e => rw [hf] at h; exact ⟨e, rfl, h⟩

/-- If no live entry carries the id, the typed scan also fails. -/
theorem find?_typed_none_of_not_mem {l : List ContextEntry} {h : Int}
    {k : ContextType} (hmem : h ∉ liveIds l) :
    l.find? (fun e => e.in_use && e.id == h && e.type == k) = none := by
  rw [List.find?_eq_none]
  intro e hel hpe
  simp at hpe
  exact hmem (mem_liveIds.mpr ⟨e, hel, hpe.1.1, hpe.1.2⟩)

/-- If no live entry carries the id, the untyped scan fails. -/
theorem find?_untyped_none_of_not_mem {l : List ContextEntry} {h : Int}
    (hmem : h ∉ liveIds l) :
    l.find? (fun e => e.in_use && e.id == h) = none := by
  rw [List.find?_eq_none]
  intro e hel hpe
  simp at hpe
  exact hmem (mem_liveIds.mpr ⟨e, hel, hpe.1, hpe.2⟩)

/-- Kind safety of the raw scan: when the (unique) live entry with the id
has a kind other than the expected one, the typed lookup fails. -/
theorem find?_typed_none_of_kind_mismatch {l : List ContextEntry} {h : Int}
    {e : ContextEntry} {k : ContextType}
    (hnodup : (liveIds l).Nodup)
    (hfind : l.find? (fun x => x.in_use && x.id == h) = some e)
    (hk : (e.type == k) = false) :
    l.find? (fun x => x.in_use && x.id == h && x.type == k) = none := by
  induction l with
  | nil => simp at hfind
  | cons a t ih =>
    rw [List.find?_cons] at hfind
    cases hpa : (a.in_use && a.id == h) with
    | true =>
      simp [hpa] at hfind
      subst hfind
      simp at hpa
      have hids : liveIds (a :: t) = a.id :: liveIds t := by
        simp [liveIds, List.filter_cons, hpa.1]
      rw [hids] at hnodup
      have hnot : h ∉ liveIds t := by
        have := (List.nodup_cons.mp hnodup).1
        rwa [hpa.2] at this
      rw [List.find?_cons]
      have : (a.in_use && a.id == h && a.type == k) = false := by
        simp [hpa.1, hpa.2, hk]
      simp only [this]
      exact find?_typed_none_of_not_mem hnot
    | false =>
      simp [hpa] at hfind
      have htail : (liveIds t).Nodup := by
        by_cases hu : a.in_use = true
        · have hids : liveIds (a :: t) = a.id :: liveIds t := by
            simp [liveIds, List.filter_cons, hu]
          rw [hids] at hnodup
          exact (List.nodup_cons.mp hnodup).2
        · have hids : liveIds (a :: t) = liveIds t := by
            simp only [Bool.not_eq_true] at hu
            simp [liveIds, List.filter_cons, hu]
          rwa [hids] at hnodup
      rw [List.find?_cons]
      have : (a.in_use && a.id == h && a.type == k) = false := by
        simp only [hpa, Bool.false_and]
      simp only [this]
      exact ih htail hfind

/-- After free_context_id, no live entry with the freed id remains
(given the live ids were duplicate-free). -/
theorem find?_freeSlot_none {cid : Int} {l : List ContextEntry}
    (hnodup : (liveIds l).Nodup) :
    (freeSlot cid l).find? (fun e => e.in_use && e.id == cid) = none := by
  induction l with
  | nil => rfl
  | cons a t ih =>
    cases hpa : (a.in_use && a.id == cid) with
    | true =>
      simp at hpa
      have hids : liveIds (a :: t) = a.id :: liveIds t := by
        simp [liveIds, List.filter_cons, hpa.1]
      rw [hids] at hnodup
      have hnot : cid ∉ liveIds t := by
        have := (List.nodup_cons.mp hnodup).1
        rwa [hpa.2] at this
      have : freeSlot cid (a :: t) =
          { a with in_use := false, ptr := none, options := none } :: t := by
        simp [freeSlot, hpa.1, hpa.2]
      rw [this, List.find?_cons]
      simp only [Bool.false_and, Bool.and_eq_true]
      exact find?_untyped_none_of_not_mem hnot
    | false =>
      have htail : (liveIds t).Nodup := by
        by_cases hu : a.in_use = true
        · have hids : liveIds (a :: t) = a.id :: liveIds t := by
            simp [liveIds, List.filter_cons, hu]
          rw [hids] at hnodup
          exact (List.nodup_cons.mp hnodup).2
        · have hids : liveIds (a :: t) = liveIds t := by
            simp only [Bool.not_eq_true] at hu
            simp [liveIds, List.filter_cons, hu]
          rwa [hids] at hnodup
      have hstep : freeSlot cid (a :: t) = a :: freeSlot cid t := by
        simp [freeSlot, hpa]
      rw [hstep, List.find?_cons]
      simp only [hpa]
      exact ih htail

theorem allocSlot_none_of_full {nid : Int} {ty : ContextType} {p : NativeObj}
    {l : List ContextEntry} (h : ∀ e ∈ l, e.in_use = true) :
    allocSlot nid ty p l = none := by
  induction l with
  | nil => rfl
  | cons a t ih =>
    simp [allocSlot, h a (by simp),
      ih (fun e he => h e (List.mem_cons_of_mem a he))]

theorem allocSlot_isSome_of_free {nid : Int} {ty : ContextType}
    {p : NativeObj} {l : List ContextEntry}
    (h : ∃ e ∈ l, e.in_use = false) : (allocSlot nid ty p l).isSome = true := by
  induction l with
  | nil => simp at h
  | cons a t ih =>
    by_cases ha : a.in_use = true
    · obtain ⟨e, he, hu⟩ := h
      rcases List.mem_cons.mp he with rfl | he'
      · rw [ha] at hu; exact absurd hu (by simp)
      · simp only [allocSlot, ha, if_true]
        have := ih ⟨e, he', hu⟩
        cases hs : allocSlot nid ty p t with
        | none => rw [hs] at this; exact absurd this (by simp)
        | some t' => simp [hs]
    · simp only [Bool.not_eq_true] at ha
      simp [allocSlot, ha]

theorem allocSlot_length {nid : Int} {ty : ContextType} {p : NativeObj} :
    ∀ {l t : List ContextEntry}, allocSlot nid ty p l = some t →
      t.length = l.length := by
  intro l
  induction l with
  | nil => intro t h; simp [allocSlot] at h
  | cons a r ih =>
    intro t h
    by_cases ha : a.in_use = true
    · simp only [allocSlot, ha, if_true, Option.map_eq_some'] at h
      obtain ⟨t', ht', rfl⟩ := h
      simp [ih ht']
    · simp only [Bool.not_eq_true] at ha
      simp only [allocSlot, ha, Bool.false_eq_true, if_false,
        Option.some.injEq] at h
      subst h
      simp

theorem freeSlot_length {cid : Int} :
    ∀ {l : List ContextEntry}, (freeSlot cid l).length = l.length := by
  intro l
  induction l with
  | nil => rfl
  | cons a t ih =>
    by_cases h : (a.in_use && a.id == cid) = true
    · simp [freeSlot, h]
    · simp only [Bool.not_eq_true] at h
      simp [freeSlot, h, ih]

theorem freeSlot_creates_free {h : Int} {l : List ContextEntry}
    (hfind : (l.find? (fun e => e.in_use && e.id == h)).isSome = true) :
    ∃ e ∈ freeSlot h l, e.in_use = false := by
  induction l with
  | nil => simp at hfind
  | cons a t ih =>
    by_cases hpa : (a.in_use && a.id == h) = true
    · refine ⟨{ a with in_use := false, ptr := none, options := none },
        ?_, rfl⟩
      simp [freeSlot, hpa]
    · simp only [Bool.not_eq_true] at hpa
      rw [List.find?_cons] at hfind
      simp only [hpa] at hfind
      obtain ⟨e, he, hu⟩ := ih hfind
      exact ⟨e, by simp [freeSlot, hpa, he], hu⟩

theorem liveIds_cons_of_use {e : ContextEntry} {r : List ContextEntry}
    (h : e.in_use = true) : liveIds (e :: r) = e.id :: liveIds r := by
  simp [liveIds, List.filter_cons, h]

theorem liveIds_cons_of_free {e : ContextEntry} {r : List ContextEntry}
    (h : e.in_use = false) : liveIds (e :: r) = liveIds r := by
  simp [liveIds, List.filter_cons, h]

theorem liveIds_allocSlot {nid : Int} {ty : ContextType} {p : NativeObj} :
    ∀ {l t : List ContextEntry}, allocSlot nid ty p l = some t →
      (liveIds t).Perm (nid :: liveIds l) := by
  intro l
  induction l with
  | nil => intro t h; simp [allocSlot] at h
  | cons a r ih =>
    intro t h
    by_cases ha : a.in_use = true
    · simp only [allocSlot, ha, if_true, Option.map_eq_some'] at h
      obtain ⟨t', ht', rfl⟩ := h
      rw [liveIds_cons_of_use ha, liveIds_cons_of_use ha]
      exact ((ih ht').cons a.id).trans (List.Perm.swap nid a.id _)
    · simp only [Bool.not_eq_true] at ha
      simp only [allocSlot, ha, Bool.false_eq_true, if_false,
        Option.some.injEq] at h
      subst h
      rw [liveIds_cons_of_use rfl, liveIds_cons_of_free ha]

theorem alloc_preserves_inv {st : AtomicState} {ty : ContextType}
    {p : NativeObj} (hinv : AtomicInv st) :
    AtomicInv (alloc_context_id st ty p).2 := by
  obtain ⟨h1, h2, h3⟩ := hinv
  cases hs : allocSlot st.next_context_id ty p st.table with
  | none =>
    have hst : (alloc_context_id st ty p).2 = st := by
      simp [alloc_context_id, hs]
    rw [hst]
    exact ⟨h1, h2, h3⟩
  | some t =>
    have hst : (alloc_context_id st ty p).2 =
        { st with table := t, next_context_id := st.next_context_id + 1 } := by
      simp [alloc_context_id, hs]
    rw [hst]
    have hperm := liveIds_allocSlot hs
    refine ⟨by dsimp only; omega, ?_, ?_⟩
    · intro e he hu
      dsimp only at he ⊢
      have hid : e.id ∈ liveIds t := mem_liveIds.mpr ⟨e, he, hu, rfl⟩
      have := hperm.mem_iff.mp hid
      rcases List.mem_cons.mp this with heq | hmem
      · rw [heq]; omega
      · obtain ⟨e', he', hu', hid'⟩ := mem_liveIds.mp hmem
        have := h2 e' he' hu'
        omega
    · have hfresh : st.next_context_id ∉ liveIds st.table := by
        intro hmem
        obtain ⟨e', he', hu', hid'⟩ := mem_liveIds.mp hmem
        have := h2 e' he' hu'
        omega
      exact hperm.nodup_iff.mpr (List.nodup_cons.mpr ⟨hfresh, h3⟩)

/-- Audio-table counterparts of the allocation-scan lemmas. -/
theorem audioAllocSlot_none_of_full {nid : Int} {fifo : AVAudioFifoM}
    {fmt ch : Int} {l : List AudioFIFOEntry}
    (h : ∀ e ∈ l, e.in_use = true) :
    audioAllocSlot nid fifo fmt ch l = none := by
  induction l with
  | nil => rfl
  | cons a t ih =>
    simp [audioAllocSlot, h a (by simp),
      ih (fun e he => h e (List.mem_cons_of_mem a he))]

theorem audioLiveIds_cons_of_use {e : AudioFIFOEntry}
    {r : List AudioFIFOEntry} (h : e.in_use = true) :
    audioLiveIds (e :: r) = e.id :: audioLiveIds r := by
  simp [audioLiveIds, List.filter_cons, h]

theorem audioLiveIds_cons_of_free {e : AudioFIFOEntry}
    {r : List AudioFIFOEntry} (h : e.in_use = false) :
    audioLiveIds (e :: r) = audioLiveIds r := by
  simp [audioLiveIds, List.filter_cons, h]

theorem audioLiveIds_allocSlot {nid : Int} {fifo : AVAudioFifoM}
    {fmt ch : Int} :
    ∀ {l t : List AudioFIFOEntry}, audioAllocSlot nid fifo fmt ch l = some t →
      (audioLiveIds t).Perm (nid :: audioLiveIds l) := by
  intro l
  induction l with
  | nil => intro t h; simp [audioAllocSlot] at h
  | cons a r ih =>
    intro t h
    by_cases ha : a.in_use = true
    · simp only [audioAllocSlot, ha, if_true, Option.map_eq_some'] at h
      obtain ⟨t', ht', rfl⟩ := h
      rw [audioLiveIds_cons_of_use ha, audioLiveIds_cons_of_use ha]
      exact ((ih ht').cons a.id).trans (List.Perm.swap nid a.id _)
    · simp only [Bool.not_eq_true] at ha
      simp only [audioAllocSlot, ha, Bool.false_eq_true, if_false,
        Option.some.injEq] at h
      subst h
      rw [audioLiveIds_cons_of_use rfl, audioLiveIds_cons_of_free ha]

theorem audio_alloc_preserves_inv {ast : AudioState} {fifo : AVAudioFifoM}
    {fmt ch : Int} (hinv : AudioInv ast) :
    AudioInv (alloc_audio_fifo_id ast fifo fmt ch).2 := by
  obtain ⟨h1, h2, h3⟩ := hinv
  cases hs : audioAllocSlot ast.next_fifo_id fifo fmt ch ast.table with
  | none =>
    have hst : (alloc_audio_fifo_id ast fifo fmt ch).2 = ast := by
      simp [alloc_audio_fifo_id, hs]
    rw [hst]
    exact ⟨h1, h2, h3⟩
  | some t =>
    have hst : (alloc_audio_fifo_id ast fifo fmt ch).2 =
        { ast with table := t, next_fifo_id := ast.next_fifo_id + 1 } := by
      simp [alloc_audio_fifo_id, hs]
    rw [hst]
    have hperm := audioLiveIds_allocSlot hs
    refine ⟨by dsimp only; omega, ?_, ?_⟩
    · intro e he hu
      dsimp only at he ⊢
      have hid : e.id ∈ audioLiveIds t := mem_audioLiveIds.mpr ⟨e, he, hu, rfl⟩
      have := hperm.mem_iff.mp hid
      rcases List.mem_cons.mp this with heq | hmem
      · rw [heq]; omega
      · obtain ⟨e', he', hu', hid'⟩ := mem_audioLiveIds.mp hmem
        have := h2 e' he' hu'
        omega
    · have hfresh : ast.next_fifo_id ∉ audioLiveIds ast.table := by
        intro hmem
        obtain ⟨e', he', hu', hid'⟩ := mem_audioLiveIds.mp hmem
        have := h2 e' he' hu'
        omega
      exact hperm.nodup_iff.mpr (List.nodup_cons.mpr ⟨hfresh, h3⟩)

theorem allocSlot_counters {nid : Int} {ty : ContextType} {p : NativeObj} :
    ∀ {l t : List ContextEntry}, allocSlot nid ty p l = some t →
      t.map (·.frame_counter) = l.map (·.frame_counter) := by
  intro l
  induction l with
  | nil => intro t h; simp [allocSlot] at h
  | cons a r ih =>
    intro t h
    by_cases ha : a.in_use = true
    · simp only [allocSlot, ha, if_true, Option.map_eq_some'] at h
      obtain ⟨t', ht', rfl⟩ := h
      simp [ih ht']
    · simp only [Bool.not_eq_true] at ha
      simp only [allocSlot, ha, Bool.false_eq_true, if_false,
        Option.some.injEq] at h
      subst h
      simp

theorem freeSlot_counters {cid : Int} :
    ∀ {l : List ContextEntry},
      (freeSlot cid l).map (·.frame_counter) = l.map (·.frame_counter) := by
  intro l
  induction l with
  | nil => rfl
  | cons a t ih =>
    by_cases h : (a.in_use && a.id == cid) = true
    · simp [freeSlot, h]
    · simp only [Bool.not_eq_true] at h
      simp [freeSlot, h, ih]

/-- A close call that finds no live entry with the id is the identity and
runs no destructor. -/
theorem close_noop_of_none {st : AtomicState} {cid : Int}
    (h : st.table.find? (fun e => e.in_use && e.id == cid) = none) :
    atomic_close_context st cid = (st, []) := by
  simp [atomic_close_context, h]

/-- Claim C3: after close(h) has released h, a second close(h) is a no-op:
the kind-specific destructor runs at most once per close, the first close
clears the slot (no live entry with the id remains), and the second call
returns the state unchanged with no destructor action. -/
theorem C3_double_close (st : AtomicState) (cid : Int)
    (hnodup : (liveIds st.table).Nodup) :
    atomic_close_context (atomic_close_context st cid).1 cid =
      ((atomic_close_context st cid).1, []) ∧
    get_context_entry (atomic_close_context st cid).1 cid = none ∧
    (atomic_close_context st cid).2.length ≤ 1 := by
  cases hf : st.table.find? (fun e => e.in_use && e.id == cid) with
  | none =>
    have h1 : atomic_close_context st cid = (st, []) := close_noop_of_none hf
    rw [h1]
    exact ⟨close_noop_of_none hf, hf, by simp⟩
  | some e =>
    have htab : ((atomic_close_context st cid).1).table =
        freeSlot cid st.table := by
      by_cases he : (e.type == ContextType.encoder) = true
      · simp [atomic_close_context, hf, he, free_context_id,
          cleanup_encoder_mappings]
      · simp only [Bool.not_eq_true] at he
        simp [atomic_close_context, hf, he, free_context_id]
    have hnone : ((atomic_close_context st cid).1).table.find?
        (fun e => e.in_use && e.id == cid) = none := by
      rw [htab]
      exact find?_freeSlot_none hnodup
    refine ⟨?_, ?_, ?_⟩
    · exact close_noop_of_none hnone
    · simpa [get_context_entry] using hnone
    · have hacts : (atomic_close_context st cid).2 =
          (match e.type with
           | .frame => []
           | .packet => []
           | _ => [(e.type, e.ptr)]) := by
        by_cases he : (e.type == ContextType.encoder) = true
        · simp [atomic_close_context, hf, he]
        · simp only [Bool.not_eq_true] at he
          simp [atomic_close_context, hf, he]
      rw [hacts]
      cases e.type <;> simp

/-- Claim C10: write-packet operates on a clone; whatever the engine
returns, the handle table (and so the caller's packet) is unchanged. -/
theorem C10_write_packet_pure (mux : OutputFormatM → PacketM → Int)
    (st : AtomicState) (oc pk idx : Int) (ip : Option (Int × Int)) :
    (atomic_write_packet mux st oc pk idx ip).2 = st ∧
    get_context_ptr (atomic_write_packet mux st oc pk idx ip).2 pk .packet =
      get_context_ptr st pk .packet := by
  have h : (atomic_write_packet mux st oc pk idx ip).2 = st := by
    unfold atomic_write_packet
    split <;> rfl
  exact ⟨h, by rw [h]⟩

/-- Claim C5: a full table rejects registration with the -1 sentinel and
is left unchanged (both for contexts and for the separately bounded audio
ring buffers); after freeing one live handle the next registration
succeeds, stamps the running counter value and reuses a slot (the table
does not grow); the audio bound is the smaller of the two. -/
theorem C5_capacity (st : AtomicState) (ty : ContextType) (p : NativeObj)
    (h : Int) (ast : AudioState) (fifo : AVAudioFifoM) (fmt ch : Int)
    (hfull : ∀ e ∈ st.table, e.in_use = true)
    (hlive : (st.table.find? (fun e => e.in_use && e.id == h)).isSome = true)
    (hafull : ∀ e ∈ ast.table, e.in_use = true) :
    alloc_context_id st ty p = (-1, st) ∧
    alloc_audio_fifo_id ast fifo fmt ch = (-1, ast) ∧
    (alloc_context_id (free_context_id st h) ty p).1 = st.next_context_id ∧
    (alloc_context_id (free_context_id st h) ty p).2.table.length =
      st.table.length ∧
    MAX_AUDIO_FIFOS < MAX_CONTEXTS := by
  obtain ⟨t, hs⟩ : ∃ t,
      allocSlot st.next_context_id ty p (freeSlot h st.table) = some t := by
    have hfree := freeSlot_creates_free hlive
    exact Option.isSome_iff_exists.mp
      (allocSlot_isSome_of_free hfree)
  refine ⟨?_, ?_, ?_, ?_, by decide⟩
  · simp [alloc_context_id, allocSlot_none_of_full hfull]
  · simp [alloc_audio_fifo_id, audioAllocSlot_none_of_full hafull]
  · simp [alloc_context_id, free_context_id, hs]
  · have : (alloc_context_id (free_context_id st h) ty p).2.table = t := by
      simp [alloc_context_id, free_context_id, hs]
    rw [this, allocSlot_length hs, freeSlot_length]

/-- Claim C9: neither registration nor release reinitialises a slot's
frame_counter (alloc_context_id and free_context_id leave the per-slot
counters pointwise unchanged), and in the concrete replay
create/send/send/close/create/send the second encoder, placed into the
first encoder's freed slot, stamps its first synthetic pts as 2 (the
count k of frames sent through the first encoder) instead of 0. -/
theorem C9_counter_persistence :
    (∀ (st : AtomicState) (ty : ContextType) (p : NativeObj) (cid : Int),
      ((alloc_context_id st ty p).2).table.map (·.frame_counter) =
        st.table.map (·.frame_counter) ∧
      (free_context_id st cid).table.map (·.frame_counter) =
        st.table.map (·.frame_counter)) ∧
    s6C9.1 = 3 ∧
    get_context_ptr s7C9 2 .frame =
      some (.frame { pts := 2, pict_type := 0, nb_samples := 0, data := [] }) := by
  refine ⟨?_, by decide, by decide⟩
  intro st ty p cid
  constructor
  · cases hs : allocSlot st.next_context_id ty p st.table with
    | none => simp [alloc_context_id, hs]
    | some t =>
      have : (alloc_context_id st ty p).2.table = t := by
        simp [alloc_context_id, hs]
      rw [this, allocSlot_counters hs]
  · simpa [free_context_id] using freeSlot_counters

/-- Claim C1, kind-safety as amended. Under duplicate-free live ids:
a live handle of kind K1 looked up as K2 yields NULL (none) — the stored
pointer is never produced under the wrong kind; write-header on a handle
whose kind is not OutputFormat throws InvalidHandle and changes nothing;
but send-packet given a live handle whose kind is not Packet proceeds as
if the flush sentinel had been passed (the engine receives NULL) instead
of failing. -/
theorem C1_kind_safety_amended (st : AtomicState) (h : Int)
    (e : ContextEntry) (k2 : ContextType) (d : Int) (c : CodecM)
    (eng : CodecM → Option PacketM → Int)
    (hdr : OutputFormatM → List (String × String) → Int)
    (hnodup : (liveIds st.table).Nodup)
    (hfind : st.table.find? (fun x => x.in_use && x.id == h) = some e)
    (hk2 : (e.type == k2) = false)
    (hout : (e.type == ContextType.output_format) = false)
    (hpkt : (e.type == ContextType.packet) = false)
    (hdec : get_context_ptr st d .decoder = some (.codec c)) :
    get_context_ptr st h k2 = none ∧
    atomic_write_header hdr st h = (.err "Invalid output context", st) ∧
    atomic_send_packet eng st d (some h) = .ok (statusMap (eng c none)) := by
  have hko := find?_typed_none_of_kind_mismatch hnodup hfind hout
  have hkp := find?_typed_none_of_kind_mismatch hnodup hfind hpkt
  refine ⟨?_, ?_, ?_⟩
  · simp [get_context_ptr, find?_typed_none_of_kind_mismatch hnodup hfind hk2]
  · have h1 : get_context_ptr st h .output_format = none := by
      simp [get_context_ptr, hko]
    unfold atomic_write_header
    rw [h1]
  · have h1 : get_context_ptr st h .packet = none := by
      simp [get_context_ptr, hkp]
    unfold atomic_send_packet
    rw [hdec]
    dsimp only
    rw [h1]

/-- Claim C1 counterexample: handle 2 is live with kind Frame, yet
send-packet with it does not fail — it returns status 0, the engine
having been fed the NULL flush sentinel (the probe engine returns 0 only
when its packet argument is NULL). The claim demands an InvalidHandle
failure here. -/
theorem C1_counterexample :
    (get_context_ptr stC1 2 .frame).isSome = true ∧
    atomic_send_packet (fun _ p => if p.isNone then 0 else -22) stC1 1
      (some 2) = .ok 0 := by decide

/-- Witness for C1_kind_safety_amended at the concrete two-entry state. -/
theorem C1_kind_safety_amended_witness :
    (liveIds stC1.table).Nodup ∧
    (get_context_ptr stC1 2 .packet = none ∧
     atomic_write_header (fun _ _ => 0) stC1 2 =
       (.err "Invalid output context", stC1) ∧
     atomic_send_packet (fun _ _ => 0) stC1 1 (some 2) = .ok 0) :=
  ⟨by decide,
   C1_kind_safety_amended stC1 2 frmE2 .packet 1 cW (fun _ _ => 0)
     (fun _ _ => 0) (by decide) (by decide) (by decide) (by decide)
     (by decide) (by decide)⟩

/-- Claim C2 counterexample: the caller explicitly set pts 999 on the
frame, yet after send-frame the stored frame carries pts 0 (the counter
value) — the synthetic timestamp is assigned unconditionally, not only
when the caller has left the pts unset. -/
theorem C2_counterexample :
    get_context_ptr (atomic_send_frame engZero stC2 1 (some 2)).2 2 .frame =
      some (.frame { pts := 0, pict_type := 0, nb_samples := 0, data := [] }) ∧
    (((999 : Int)) == 0) = false := by decide

/-- Claim C2 as amended: on every send of a live frame to a live encoder
the wrapper overwrites the frame's pts with the encoder entry's counter
(clearing the picture type), hands exactly that mutated frame to the
engine, and post-increments the counter — so the pts values of successive
sends are the counter values k, k+1, ..., strictly increasing and
gap-free, regardless of any caller-set pts. -/
theorem C2_send_frame_pts_amended (eng : CodecM → Option FrameM → Int)
    (st : AtomicState) (eid fid : Int) (c : CodecM) (entry : ContextEntry)
    (f : FrameM) (hne : eid ≠ fid)
    (henc : get_context_ptr st eid .encoder = some (.codec c))
    (hent : get_context_entry st eid = some entry)
    (hfr : get_context_ptr st fid .frame = some (.frame f)) :
    (atomic_send_frame eng st eid (some fid)).1 =
      .ok (statusMap (eng c (some (sentFrame f entry.frame_counter)))) ∧
    get_context_ptr (atomic_send_frame eng st eid (some fid)).2 fid .frame =
      some (.frame (sentFrame f entry.frame_counter)) ∧
    get_context_entry (atomic_send_frame eng st eid (some fid)).2 eid =
      some { entry with frame_counter := entry.frame_counter + 1 } := by
  have hred : atomic_send_frame eng st eid (some fid) =
      (.ok (statusMap (eng c (some (sentFrame f entry.frame_counter)))),
       { st with
          table := sendFrameTable st eid fid
            (sentFrame f entry.frame_counter) }) := by
    unfold atomic_send_frame
    rw [henc, hent]
    dsimp only
    rw [hfr]
    rfl
  obtain ⟨ef, hef, hefp⟩ := get_context_ptr_some hfr
  have hpredF : (ef.in_use && ef.id == fid &&
      ef.type == ContextType.frame) = true := by
    simpa using List.find?_some hef
  refine ⟨by rw [hred], ?_, ?_⟩
  · rw [hred]
    unfold get_context_ptr sendFrameTable
    dsimp only
    have h1 := @find?_updateFirst_other ContextEntry
      (fun e => e.in_use && e.id == eid)
      (fun e => e.in_use && e.id == fid && e.type == ContextType.frame)
      (fun e => { e with frame_counter := e.frame_counter + 1 })
      (fun x => rfl)
      (fun x hx => by
        simp only [Bool.and_eq_true, beq_iff_eq] at hx
        simp [hx.1.2, Ne.symm hne])
      (updateFirst
        (fun e => e.in_use && e.id == fid && e.type == ContextType.frame)
        (fun e =>
          { e with ptr := some (.frame (sentFrame f entry.frame_counter)) })
        st.table)
    rw [h1]
    have h2 := @find?_updateFirst ContextEntry
      (fun e => e.in_use && e.id == fid && e.type == ContextType.frame)
      (fun e =>
        { e with ptr := some (.frame (sentFrame f entry.frame_counter)) })
      st.table ef hef (by simpa using hpredF)
    rw [h2]
  · rw [hred]
    unfold get_context_entry sendFrameTable
    dsimp only
    have h1 := @find?_updateFirst_other ContextEntry
      (fun e => e.in_use && e.id == fid && e.type == ContextType.frame)
      (fun e => e.in_use && e.id == eid)
      (fun e =>
        { e with ptr := some (.frame (sentFrame f entry.frame_counter)) })
      (fun x => rfl)
      (fun x hx => by
        simp only [Bool.and_eq_true, beq_iff_eq] at hx
        simp [hx.2, hne])
      st.table
    have hent' : (updateFirst
        (fun e => e.in_use && e.id == fid && e.type == ContextType.frame)
        (fun e =>
          { e with ptr := some (.frame (sentFrame f entry.frame_counter)) })
        st.table).find? (fun e => e.in_use && e.id == eid) = some entry := by
      rw [h1]
      exact hent
    have h2 := @find?_updateFirst ContextEntry
      (fun e => e.in_use && e.id == eid)
      (fun e => { e with frame_counter := e.frame_counter + 1 })
      (updateFirst
        (fun e => e.in_use && e.id == fid && e.type == ContextType.frame)
        (fun e =>
          { e with ptr := some (.frame (sentFrame f entry.frame_counter)) })
        st.table)
      entry hent' (by simpa using List.find?_some hent)
    rw [h2]

/-- Witness for C2_send_frame_pts_amended at the concrete state stC2. -/
theorem C2_send_frame_pts_amended_witness :
    get_context_ptr stC2 1 .encoder = some (.codec cW) ∧
    get_context_entry stC2 1 = some encE1 ∧
    get_context_ptr stC2 2 .frame = some (.frame frm999) ∧
    ((atomic_send_frame engZero stC2 1 (some 2)).1 = .ok 0 ∧
     get_context_ptr (atomic_send_frame engZero stC2 1 (some 2)).2 2 .frame =
       some (.frame (sentFrame frm999 0)) ∧
     get_context_entry (atomic_send_frame engZero stC2 1 (some 2)).2 1 =
       some { encE1 with frame_counter := 1 }) :=
  ⟨by decide, by decide, by decide,
   C2_send_frame_pts_amended engZero stC2 1 2 cW encE1 frm999 (by decide)
     (by decide) (by decide) (by decide)⟩

/-- Claim C4 counterexample: the context table and the audio-fifo table
run independent id counters, both starting at 1, so a Frame handle and an
AudioRingBuffer handle are simultaneously live under the same id 1 —
refuting process-wide id uniqueness across all resource kinds. -/
theorem C4_counterexample :
    (atomic_alloc_frame initAtomicState).1 = 1 ∧
    (audio_fifo_alloc initAudioState 8 1 1024).1 = 1 ∧
    (get_context_ptr (atomic_alloc_frame initAtomicState).2 1 .frame).isSome
      = true ∧
    (get_audio_fifo_entry (audio_fifo_alloc initAudioState 8 1 1024).2
      1).isSome = true := by decide

/-- Claim C4 as amended: within each of the two tables, a successful
registration returns the current counter value — never 0 — and bumps the
counter; the table invariant (live ids positive, below the counter, and
pairwise distinct) is preserved, and the fresh id differs from every id
currently in use in that table. Uniqueness is per table: the audio-fifo
table's ids are drawn from a separate counter and may numerically
coincide with context ids. -/
theorem C4_handle_ids_amended (st : AtomicState) (ty : ContextType)
    (p : NativeObj) (ast : AudioState) (fifo : AVAudioFifoM) (fmt ch : Int)
    (hc : AtomicInv st) (ha : AudioInv ast) :
    (alloc_context_id st ty p).1 ≠ 0 ∧
    AtomicInv (alloc_context_id st ty p).2 ∧
    ((alloc_context_id st ty p).1 ≠ -1 →
      (alloc_context_id st ty p).1 = st.next_context_id ∧
      (alloc_context_id st ty p).2.next_context_id =
        st.next_context_id + 1 ∧
      ∀ e ∈ st.table, e.in_use = true →
        e.id ≠ (alloc_context_id st ty p).1) ∧
    (alloc_audio_fifo_id ast fifo fmt ch).1 ≠ 0 ∧
    AudioInv (alloc_audio_fifo_id ast fifo fmt ch).2 ∧
    ((alloc_audio_fifo_id ast fifo fmt ch).1 ≠ -1 →
      (alloc_audio_fifo_id ast fifo fmt ch).1 = ast.next_fifo_id ∧
      (alloc_audio_fifo_id ast fifo fmt ch).2.next_fifo_id =
        ast.next_fifo_id + 1 ∧
      ∀ e ∈ ast.table, e.in_use = true →
        e.id ≠ (alloc_audio_fifo_id ast fifo fmt ch).1) := by
  refine ⟨?_, alloc_preserves_inv hc, ?_, ?_,
    audio_alloc_preserves_inv ha, ?_⟩
  · cases hs : allocSlot st.next_context_id ty p st.table with
    | none =>
      have : (alloc_context_id st ty p).1 = -1 := by
        simp [alloc_context_id, hs]
      rw [this]; decide
    | some t =>
      have : (alloc_context_id st ty p).1 = st.next_context_id := by
        simp [alloc_context_id, hs]
      rw [this]
      have := hc.1
      omega
  · cases hs : allocSlot st.next_context_id ty p st.table with
    | none =>
      intro hne
      exact absurd (by simp [alloc_context_id, hs]) hne
    | some t =>
      intro _
      have h1 : (alloc_context_id st ty p).1 = st.next_context_id := by
        simp [alloc_context_id, hs]
      refine ⟨h1, by simp [alloc_context_id, hs], ?_⟩
      intro e he hu heq
      have := (hc.2.1 e he hu).2
      rw [heq, h1] at this
      omega
  · cases hs : audioAllocSlot ast.next_fifo_id fifo fmt ch ast.table with
    | none =>
      have : (alloc_audio_fifo_id ast fifo fmt ch).1 = -1 := by
        simp [alloc_audio_fifo_id, hs]
      rw [this]; decide
    | some t =>
      have : (alloc_audio_fifo_id ast fifo fmt ch).1 = ast.next_fifo_id := by
        simp [alloc_audio_fifo_id, hs]
      rw [this]
      have := ha.1
      omega
  · cases hs : audioAllocSlot ast.next_fifo_id fifo fmt ch ast.table with
    | none =>
      intro hne
      exact absurd (by simp [alloc_audio_fifo_id, hs]) hne
    | some t =>
      intro _
      have h1 : (alloc_audio_fifo_id ast fifo fmt ch).1 = ast.next_fifo_id :=
        by simp [alloc_audio_fifo_id, hs]
      refine ⟨h1, by simp [alloc_audio_fifo_id, hs], ?_⟩
      intro e he hu heq
      have := (ha.2.1 e he hu).2
      rw [heq, h1] at this
      omega

/-- Witness for C4_handle_ids_amended at concrete one-slot tables. -/
theorem C4_handle_ids_amended_witness :
    AtomicInv stC4w ∧ AudioInv astC4w ∧
    ((alloc_context_id stC4w .frame (.frame freshFrame)).1 ≠ 0 ∧
     AtomicInv (alloc_context_id stC4w .frame (.frame freshFrame)).2 ∧
     ((alloc_context_id stC4w .frame (.frame freshFrame)).1 ≠ -1 →
       (alloc_context_id stC4w .frame (.frame freshFrame)).1 =
         stC4w.next_context_id ∧
       (alloc_context_id stC4w .frame (.frame freshFrame)).2.next_context_id
         = stC4w.next_context_id + 1 ∧
       ∀ e ∈ stC4w.table, e.in_use = true →
         e.id ≠ (alloc_context_id stC4w .frame (.frame freshFrame)).1) ∧
     (alloc_audio_fifo_id astC4w { data := [], allocated := 4 } 8 1).1 ≠ 0 ∧
     AudioInv (alloc_audio_fifo_id astC4w { data := [], allocated := 4 }
       8 1).2 ∧
     ((alloc_audio_fifo_id astC4w { data := [], allocated := 4 } 8 1).1
         ≠ -1 →
       (alloc_audio_fifo_id astC4w { data := [], allocated := 4 } 8 1).1 =
         astC4w.next_fifo_id ∧
       (alloc_audio_fifo_id astC4w { data := [], allocated := 4 }
         8 1).2.next_fifo_id = astC4w.next_fifo_id + 1 ∧
       ∀ e ∈ astC4w.table, e.in_use = true →
         e.id ≠ (alloc_audio_fifo_id astC4w { data := [], allocated := 4 }
           8 1).1)) := by
  have h1 : AtomicInv stC4w := ⟨by decide, by decide, by decide⟩
  have h2 : AudioInv astC4w := ⟨by decide, by decide, by decide⟩
  exact ⟨h1, h2, C4_handle_ids_amended stC4w .frame (.frame freshFrame)
    astC4w { data := [], allocated := 4 } 8 1 h1 h2⟩

/-- Witness for C3_double_close. -/
theorem C3_double_close_witness :
    (liveIds stC3w.table).Nodup ∧
    (atomic_close_context (atomic_close_context stC3w 2).1 2 =
      ((atomic_close_context stC3w 2).1, []) ∧
     get_context_entry (atomic_close_context stC3w 2).1 2 = none ∧
     (atomic_close_context stC3w 2).2.length ≤ 1) :=
  ⟨by decide, C3_double_close stC3w 2 (by decide)⟩

/-- Witness for C5_capacity. -/
theorem C5_capacity_witness :
    (∀ e ∈ stC5w.table, e.in_use = true) ∧
    (stC5w.table.find? (fun e => e.in_use && e.id == 5)).isSome = true ∧
    (∀ e ∈ astC5w.table, e.in_use = true) ∧
    (alloc_context_id stC5w .frame (.frame freshFrame) = (-1, stC5w) ∧
     alloc_audio_fifo_id astC5w { data := [], allocated := 4 } 8 1 =
       (-1, astC5w) ∧
     (alloc_context_id (free_context_id stC5w 5) .frame
       (.frame freshFrame)).1 = stC5w.next_context_id ∧
     (alloc_context_id (free_context_id stC5w 5) .frame
       (.frame freshFrame)).2.table.length = stC5w.table.length ∧
     MAX_AUDIO_FIFOS < MAX_CONTEXTS) :=
  ⟨by decide, by decide, by decide,
   C5_capacity stC5w .frame (.frame freshFrame) 5 astC5w
     { data := [], allocated := 4 } 8 1 (by decide) (by decide) (by decide)⟩

/-! Behaviour of the audio ring-buffer wrapper. -/

theorem fifo_read_spec (st : AtomicState) (ast : AudioState)
    (fid frid : Int) (entry : AudioFIFOEntry) (f : AVAudioFifoM)
    (frame : FrameM) (n : Nat)
    (he : get_audio_fifo_entry ast fid = some entry)
    (hf : entry.fifo = some f)
    (hfr : get_context_ptr st frid .frame = some (.frame frame)) :
    (audio_fifo_read st ast fid frid (n : Int)).1 =
      .ok ((min n f.data.length : Nat) : Int) ∧
    (0 < min n f.data.length →
      get_context_ptr (audio_fifo_read st ast fid frid (n : Int)).2.1 frid
          .frame =
        some (.frame { frame with data := f.data.take (min n f.data.length), nb_samples := min n f.data.length }) ∧
      get_audio_fifo_entry (audio_fifo_read st ast fid frid (n : Int)).2.2
          fid =
        some { entry with fifo := some { f with data := f.data.drop (min n f.data.length) } }) ∧
    (min n f.data.length = 0 →
      audio_fifo_read st ast fid frid (n : Int) = (.ok 0, st, ast)) := by
  have hnb1 : (if (((f.data.length : Nat) : Int) < ((n : Nat) : Int)) then
      ((f.data.length : Nat) : Int) else ((n : Nat) : Int)) =
      ((min n f.data.length : Nat) : Int) := by
    split
    · next hlt =>
      have : min n f.data.length = f.data.length := by omega
      rw [this]
    · next hge =>
      have : min n f.data.length = n := by omega
      rw [this]
  by_cases hk : min n f.data.length = 0
  · have hcond : (((min n f.data.length : Nat) : Int) ≤ 0) := by omega
    have hred : audio_fifo_read st ast fid frid (n : Int) =
        (.ok 0, st, ast) := by
      simp only [audio_fifo_read, he, hf, hfr, av_audio_fifo_size, hnb1]
      rw [if_pos hcond]
    refine ⟨?_, ?_, fun _ => hred⟩
    · rw [hred, hk]
      rfl
    · intro hpos
      omega
  · have hcond : ¬(((min n f.data.length : Nat) : Int) ≤ 0) := by omega
    have hassoc : min (min n f.data.length) f.data.length =
        min n f.data.length := by omega
    have hred : audio_fifo_read st ast fid frid (n : Int) =
        (.ok ((min n f.data.length : Nat) : Int),
         { st with table := updateFirst (fun e => e.in_use && e.id == frid && e.type == ContextType.frame) (fun e => { e with ptr := some (.frame { frame with data := f.data.take (min n f.data.length), nb_samples := min n f.data.length }) }) st.table },
         { ast with table := updateFirst (fun e => e.in_use && e.id == fid) (fun e => { e with fifo := some { f with data := f.data.drop (min n f.data.length) } }) ast.table }) := by
      simp only [audio_fifo_read, he, hf, hfr, av_audio_fifo_size, hnb1]
      simp only [hcond, if_false, av_audio_fifo_read, Int.toNat_natCast,
        hassoc]
    obtain ⟨ef, hef, hefp⟩ := get_context_ptr_some hfr
    refine ⟨by rw [hred], fun _ => ⟨?_, ?_⟩, fun h0 => absurd h0 hk⟩
    · rw [hred]
      unfold get_context_ptr
      dsimp only
      have h2 := @find?_updateFirst ContextEntry
        (fun e => e.in_use && e.id == frid && e.type == ContextType.frame)
        (fun e => { e with ptr := some (.frame { frame with data := f.data.take (min n f.data.length), nb_samples := min n f.data.length }) })
        st.table ef hef (by simpa using List.find?_some hef)
      rw [h2]
    · rw [hred]
      unfold get_audio_fifo_entry
      dsimp only
      have h2 := @find?_updateFirst AudioFIFOEntry
        (fun e => e.in_use && e.id == fid)
        (fun e => { e with fifo := some { f with data := f.data.drop (min n f.data.length) } })
        ast.table entry he (by simpa using List.find?_some he)
      rw [h2]

theorem fifo_write_spec (st : AtomicState) (ast : AudioState)
    (fid frid : Int) (entry : AudioFIFOEntry) (f : AVAudioFifoM)
    (frame : FrameM)
    (he : get_audio_fifo_entry ast fid = some entry)
    (hf : entry.fifo = some f)
    (hfr : get_context_ptr st frid .frame = some (.frame frame))
    (hlen : frame.data.length = frame.nb_samples) :
    (audio_fifo_write st ast fid frid).1 = .ok (frame.nb_samples : Int) ∧
    get_audio_fifo_entry (audio_fifo_write st ast fid frid).2 fid =
      some { entry with fifo := some { data := f.data ++ frame.data, allocated := max f.allocated (f.data.length + frame.nb_samples) } } := by
  have htake : frame.data.take frame.nb_samples = frame.data := by
    rw [← hlen]
    exact List.take_length frame.data
  have hred : audio_fifo_write st ast fid frid =
      (.ok (frame.nb_samples : Int),
       { ast with table := updateFirst (fun e => e.in_use && e.id == fid) (fun e => { e with fifo := some { data := f.data ++ frame.data, allocated := max f.allocated (f.data.length + frame.nb_samples) } }) ast.table }) := by
    by_cases hsp : ((f.allocated : Int) - (f.data.length : Int) <
        (frame.nb_samples : Int))
    · have halloc : ((f.data.length : Int) +
          (frame.nb_samples : Int)).toNat =
          f.data.length + frame.nb_samples := by omega
      have hmax1 : max (f.data.length + frame.nb_samples)
          (f.data.length + frame.nb_samples) =
          f.data.length + frame.nb_samples := by omega
      have hmax2 : max f.allocated (f.data.length + frame.nb_samples) =
          f.data.length + frame.nb_samples := by omega
      simp only [audio_fifo_write, he, hf, hfr, av_audio_fifo_size,
        av_audio_fifo_space, av_audio_fifo_realloc, av_audio_fifo_write,
        hsp, if_true, halloc, htake, hmax1, hmax2]
    · have hmax2 : max f.allocated (f.data.length + frame.nb_samples) =
          f.allocated := by omega
      simp only [audio_fifo_write, he, hf, hfr, av_audio_fifo_size,
        av_audio_fifo_space, av_audio_fifo_realloc, av_audio_fifo_write,
        hsp, if_false, htake, hmax2]
  refine ⟨by rw [hred], ?_⟩
  rw [hred]
  unfold get_audio_fifo_entry
  dsimp only
  have h2 := @find?_updateFirst AudioFIFOEntry
    (fun e => e.in_use && e.id == fid)
    (fun e => { e with fifo := some { data := f.data ++ frame.data, allocated := max f.allocated (f.data.length + frame.nb_samples) } })
    ast.table entry he (by simpa using List.find?_some he)
  rw [h2]

/-- Claim C7: a read request of n samples returns min(n, buffered size):
fewer than requested is a partial read, an empty buffer reads 0; when
anything is read, the output frame receives exactly the oldest
min(n, size) samples (FIFO order) and exactly those samples are removed;
when nothing is read, both states are untouched. -/
theorem C7_fifo_read_partial (st : AtomicState) (ast : AudioState)
    (fid frid : Int) (entry : AudioFIFOEntry) (f : AVAudioFifoM)
    (frame : FrameM) (n k : Nat)
    (he : get_audio_fifo_entry ast fid = some entry)
    (hf : entry.fifo = some f)
    (hfr : get_context_ptr st frid .frame = some (.frame frame))
    (hk : k = min n f.data.length) :
    (audio_fifo_read st ast fid frid (n : Int)).1 = .ok (k : Int) ∧
    (0 < k →
      get_context_ptr (audio_fifo_read st ast fid frid (n : Int)).2.1 frid
          .frame =
        some (.frame { frame with data := f.data.take k, nb_samples := k }) ∧
      get_audio_fifo_entry (audio_fifo_read st ast fid frid (n : Int)).2.2
          fid =
        some { entry with fifo := some { f with data := f.data.drop k } }) ∧
    (k = 0 →
      audio_fifo_read st ast fid frid (n : Int) = (.ok 0, st, ast)) := by
  subst hk
  exact fifo_read_spec st ast fid frid entry f frame n he hf hfr

/-- Witness for C7_fifo_read_partial: 5 samples requested, 3 buffered —
the read returns 3 (a partial read), moves [10, 20, 30] into the frame,
and leaves the buffer empty. -/
theorem C7_fifo_read_partial_witness :
    get_audio_fifo_entry astC7 1 = some aEntC7 ∧
    aEntC7.fifo = some fifoC7 ∧
    get_context_ptr stC3w 2 .frame = some (.frame freshFrame) ∧
    (3 : Nat) = min 5 fifoC7.data.length ∧
    ((audio_fifo_read stC3w astC7 1 2 ((5 : Nat) : Int)).1 = .ok 3 ∧
     get_context_ptr (audio_fifo_read stC3w astC7 1 2 ((5 : Nat) : Int)).2.1
         2 .frame =
       some (.frame { pts := AV_NOPTS_VALUE, pict_type := 0, nb_samples := 3, data := [10, 20, 30] }) ∧
     get_audio_fifo_entry
         (audio_fifo_read stC3w astC7 1 2 ((5 : Nat) : Int)).2.2 1 =
       some { aEntC7 with fifo := some { data := ([] : List Int), allocated := 8 } }) := by
  have h := C7_fifo_read_partial stC3w astC7 1 2 aEntC7 fifoC7 freshFrame
    5 3 (by decide) (by decide) (by decide) (by decide)
  exact ⟨by decide, by decide, by decide, by decide,
    h.1, (h.2.1 (by decide)).1, (h.2.1 (by decide)).2⟩

/-- Claim C8: write appends all of the frame's samples — growing the
allocation as needed, preserving previously buffered content and losing
no tail data — and returns the frame's sample count; writing into an
empty buffer and then reading the full count back returns exactly the
written samples. -/
theorem C8_fifo_write_growth (st : AtomicState) (ast : AudioState)
    (fid frid : Int) (entry : AudioFIFOEntry) (f : AVAudioFifoM)
    (frame : FrameM)
    (he : get_audio_fifo_entry ast fid = some entry)
    (hf : entry.fifo = some f)
    (hfr : get_context_ptr st frid .frame = some (.frame frame))
    (hlen : frame.data.length = frame.nb_samples) :
    (audio_fifo_write st ast fid frid).1 = .ok (frame.nb_samples : Int) ∧
    get_audio_fifo_entry (audio_fifo_write st ast fid frid).2 fid =
      some { entry with fifo := some { data := f.data ++ frame.data, allocated := max f.allocated (f.data.length + frame.nb_samples) } } ∧
    (f.data = [] → 0 < frame.nb_samples →
      (audio_fifo_read st (audio_fifo_write st ast fid frid).2 fid frid
        (frame.nb_samples : Int)).1 = .ok (frame.nb_samples : Int) ∧
      get_context_ptr (audio_fifo_read st (audio_fifo_write st ast fid frid).2
        fid frid (frame.nb_samples : Int)).2.1 frid .frame =
        some (.frame frame)) := by
  obtain ⟨h1, h2⟩ :=
    fifo_write_spec st ast fid frid entry f frame he hf hfr hlen
  refine ⟨h1, h2, ?_⟩
  intro hempty hpos
  have hrs := fifo_read_spec st (audio_fifo_write st ast fid frid).2 fid frid
    { entry with fifo := some { data := f.data ++ frame.data, allocated := max f.allocated (f.data.length + frame.nb_samples) } }
    { data := f.data ++ frame.data, allocated := max f.allocated (f.data.length + frame.nb_samples) }
    frame frame.nb_samples h2 rfl hfr
  have hmin : min frame.nb_samples
      (({ data := f.data ++ frame.data, allocated := max f.allocated (f.data.length + frame.nb_samples) } : AVAudioFifoM)).data.length = frame.nb_samples := by
    dsimp only
    rw [hempty]
    simp only [List.nil_append]
    rw [hlen, Nat.min_self]
  have hpos' : 0 < min frame.nb_samples
      (({ data := f.data ++ frame.data, allocated := max f.allocated (f.data.length + frame.nb_samples) } : AVAudioFifoM)).data.length := by
    rw [hmin]
    exact hpos
  constructor
  · have hA := hrs.1
    rw [hmin] at hA
    exact hA
  · have hB := (hrs.2.1 hpos').1
    rw [hmin] at hB
    dsimp only at hB
    rw [hempty] at hB
    simp only [List.nil_append] at hB
    have htk : frame.data.take frame.nb_samples = frame.data := by
      rw [← hlen]
      exact List.take_length frame.data
    rw [htk] at hB
    exact hB

/-- Witness for C8_fifo_write_growth: 2000 samples written into a buffer
of initial capacity 1024 — size becomes 2000 and a full read returns
exactly the written data. -/
theorem C8_fifo_write_growth_witness :
    get_audio_fifo_entry astC8 1 = some aEntC8 ∧
    aEntC8.fifo = some fifoC8 ∧
    get_context_ptr stC8 2 .frame = some (.frame frameC8) ∧
    frameC8.data.length = frameC8.nb_samples ∧
    (fifoC8.data ++ frameC8.data).length = 2000 ∧
    ((audio_fifo_write stC8 astC8 1 2).1 = .ok 2000 ∧
     get_audio_fifo_entry (audio_fifo_write stC8 astC8 1 2).2 1 =
       some { aEntC8 with fifo := some { data := fifoC8.data ++ frameC8.data, allocated := max fifoC8.allocated (fifoC8.data.length + frameC8.nb_samples) } } ∧
     (audio_fifo_read stC8 (audio_fifo_write stC8 astC8 1 2).2 1 2
       (frameC8.nb_samples : Int)).1 = .ok 2000 ∧
     get_context_ptr (audio_fifo_read stC8 (audio_fifo_write stC8 astC8 1 2).2
       1 2 (frameC8.nb_samples : Int)).2.1 2 .frame =
       some (.frame frameC8)) := by
  have hlen : frameC8.data.length = frameC8.nb_samples := by
    simp only [frameC8, dataC8]
    rw [List.length_map, List.length_range]
  have hsz : (fifoC8.data ++ frameC8.data).length = 2000 := by
    simp only [fifoC8, List.nil_append]
    exact hlen
  have h := C8_fifo_write_growth stC8 astC8 1 2 aEntC8 fifoC8 frameC8
    rfl rfl rfl hlen
  have hrb := h.2.2 rfl (by decide)
  refine ⟨rfl, rfl, rfl, hlen, hsz, ?_, ?_, ?_, ?_⟩
  · exact h.1
  · exact h.2.1
  · exact hrb.1
  · exact hrb.2

/-- The clone handed to the muxer by atomic_write_packet, as a function
of the selected source time_base: rescaled when both the source and the
output stream time_base numerators are non-zero, passed through
otherwise. -/
theorem write_packet_muxed (mux : OutputFormatM → PacketM → Int)
    (st : AtomicState) (oc pk sidx : Int) (F : OutputFormatM) (P : PacketM)
    (ip : Option (Int × Int))
    (hF : get_context_ptr st oc .output_format = some (.fmtOut F))
    (hP : get_context_ptr st pk .packet = some (.packet P))
    (hc1 : ¬((F.streams.length : Int) ≤ sidx)) :
    (atomic_write_packet mux st oc pk sidx ip).1.2 =
      some (if (writePacketSrcTb st oc sidx ip).num != 0 &&
          (F.streams.getD sidx.toNat { time_base := { num := 0, den := 1 } }).time_base.num != 0 then
        av_packet_rescale_ts { P with stream_index := sidx }
          (writePacketSrcTb st oc sidx ip)
          (F.streams.getD sidx.toNat { time_base := { num := 0, den := 1 } }).time_base
      else { P with stream_index := sidx }) := by
  simp only [atomic_write_packet, hF, hP]
  rw [if_neg hc1]
  rw [apply_ite Prod.snd]
  dsimp only
  rw [ite_self]
  rfl

/-- Claim C6 as amended: fix a write-packet call whose output handle,
packet handle and stream index are valid and whose output stream has a
known (non-zero) time_base. Then the packet handed to the muxer is: (a)
rescaled with the originating input stream's resolution when the caller
supplies a valid input context/stream pair with a known resolution, else
(b) rescaled with the resolution recorded in the mapping row for this
(output, stream index) pair when one exists and is known, else (c) passed
through with pts, dts and duration unchanged; rescaling is all-or-nothing
(av_packet_rescale_ts touches the three fields together). -/
theorem C6_rescale_resolution_amended (mux : OutputFormatM → PacketM → Int)
    (st : AtomicState) (oc pk sidx : Int) (F : OutputFormatM) (P : PacketM)
    (outS : StreamM)
    (hF : get_context_ptr st oc .output_format = some (.fmtOut F))
    (hP : get_context_ptr st pk .packet = some (.packet P))
    (hlt : sidx < (F.streams.length : Int))
    (hS : F.streams.getD sidx.toNat { time_base := { num := 0, den := 1 } }
      = outS)
    (hnz : outS.time_base.num ≠ 0) :
    (∀ ic ii FI inS,
      get_context_ptr st ic .input_format = some (.fmtIn FI) →
      ii < (FI.streams.length : Int) →
      FI.streams.getD ii.toNat { time_base := { num := 0, den := 1 } }
        = inS →
      inS.time_base.num ≠ 0 →
      (atomic_write_packet mux st oc pk sidx (some (ic, ii))).1.2 =
        some (av_packet_rescale_ts { P with stream_index := sidx }
          inS.time_base outS.time_base)) ∧
    (∀ tb, findMappingTb st oc sidx = some tb → tb.num ≠ 0 →
      (atomic_write_packet mux st oc pk sidx none).1.2 =
        some (av_packet_rescale_ts { P with stream_index := sidx }
          tb outS.time_base)) ∧
    (findMappingTb st oc sidx = none →
      (atomic_write_packet mux st oc pk sidx none).1.2 =
        some { P with stream_index := sidx }) := by
  have hc1 : ¬((F.streams.length : Int) ≤ sidx) := by omega
  refine ⟨?_, ?_, ?_⟩
  · intro ic ii FI inS hic hii hins hnzin
    rw [write_packet_muxed mux st oc pk sidx F P _ hF hP hc1]
    have hsrc : writePacketSrcTb st oc sidx (some (ic, ii)) =
        inS.time_base := by
      simp only [writePacketSrcTb, hic]
      rw [if_pos hii, hins]
      have hb : (inS.time_base.num == 0) = false := by
        simpa using hnzin
      simp only [hb, Bool.false_eq_true, if_false]
    rw [hsrc, hS]
    have hband : (inS.time_base.num != 0 && outS.time_base.num != 0)
        = true := by
      simp [hnzin, hnz]
    simp only [hband, if_true]
  · intro tb hmap hnztb
    rw [write_packet_muxed mux st oc pk sidx F P none hF hP hc1]
    have hsrc : writePacketSrcTb st oc sidx none = tb := by
      simp [writePacketSrcTb, hmap]
    rw [hsrc, hS]
    have hband : (tb.num != 0 && outS.time_base.num != 0) = true := by
      simp [hnztb, hnz]
    simp only [hband, if_true]
  · intro hmap
    rw [write_packet_muxed mux st oc pk sidx F P none hF hP hc1]
    have hsrc : writePacketSrcTb st oc sidx none =
        { num := 0, den := 1 } := by
      simp [writePacketSrcTb, hmap]
    rw [hsrc]
    simp

/-- Claim C6 counterexample: a source resolution IS found (the mapping
row 1/1000 matches), yet the packet is handed to the muxer with pts, dts
and duration unchanged, because the output stream's time_base numerator
is still 0 — the claim requires the three fields to be rescaled whenever
a source resolution is found. -/
theorem C6_counterexample :
    findMappingTb stC6x 1 0 = some { num := 1, den := 1000 } ∧
    (atomic_write_packet muxZero stC6x 1 2 0 none).1.2 =
      some { pts := 100, dts := 100, duration := 10, stream_index := 0, data := [] } ∧
    (decide (av_packet_rescale_ts { pts := 100, dts := 100, duration := 10, stream_index := 0, data := [] } { num := 1, den := 1000 } { num := 0, den := 1 } =
      ({ pts := 100, dts := 100, duration := 10, stream_index := 0, data := [] } : PacketM))) = false := by
  decide

/-- Witness for C6_rescale_resolution_amended: with the input pair
supplied, the input resolution 1/1000 wins; without it, the mapping
resolution 1/48000 is used. -/
theorem C6_rescale_resolution_amended_witness :
    get_context_ptr stC6w 1 .output_format = some (.fmtOut outFC6) ∧
    get_context_ptr stC6w 2 .packet = some (.packet pktC6) ∧
    (0 : Int) < (outFC6.streams.length : Int) ∧
    outFC6.streams.getD (0 : Int).toNat
      { time_base := { num := 0, den := 1 } } = outSC6 ∧
    outSC6.time_base.num ≠ 0 ∧
    (atomic_write_packet muxZero stC6w 1 2 0 (some (3, 0))).1.2 =
      some (av_packet_rescale_ts { pktC6 with stream_index := 0 }
        inSC6.time_base outSC6.time_base) ∧
    (atomic_write_packet muxZero stC6w 1 2 0 none).1.2 =
      some (av_packet_rescale_ts { pktC6 with stream_index := 0 }
        { num := 1, den := 48000 } outSC6.time_base) := by
  have h := C6_rescale_resolution_amended muxZero stC6w 1 2 0 outFC6 pktC6
    outSC6 (by decide) (by decide) (by decide) (by decide) (by decide)
  exact ⟨by decide, by decide, by decide, by decide, by decide,
    h.1 3 0 inFC6 inSC6 (by decide) (by decide) (by decide) (by decide),
    h.2.1 { num := 1, den := 48000 } (by decide) (by decide)⟩

end FF

